import Mathlib

/-!
Verification of the ticket-dashboard aggregation core.

The JavaScript sources are shallowly embedded: JS strings become `String`
(or `List Char` where character-level processing is needed), JS numbers
become `ℚ` (all arithmetic in the embedded fragments stays well inside the
exact range of IEEE doubles), nullable values become `Option`, and the
hand-rolled accumulator objects become explicit state passed through folds.
JS `Date` parsing is a host primitive; wherever the code calls
`new Date(s).getFullYear()` or subtracts dates, the embedding takes the
parse function as an explicit parameter, so every theorem quantifies over
all possible date semantics.
-/

namespace TicketDash

/-- JS `a || b` on a possibly-undefined string: `undefined` and the empty
string are falsy, every other string is truthy. -/
def jsOrStr (o : Option String) (d : String) : String :=
  match o with
  | none => d
  | some s => if s = "" then d else s

/-- JS string truthiness: a present, non-empty string. -/
def jsTruthyStr (o : Option String) : Bool :=
  match o with
  | none => false
  | some s => s ≠ ""

/-- JS `Math.round` on rationals: round half toward positive infinity
(`Math.round x = Math.floor (x + 0.5)`). -/
def jsRound (q : ℚ) : ℤ := ⌊q + (1 : ℚ)/2⌋

/-- ASCII case mapping of a single character, as JS `toLowerCase` acts on
the ASCII range (the only characters the embedded code compares). -/
def jsToLowerChar (c : Char) : Char :=
  if 'A' ≤ c ∧ c ≤ 'Z' then Char.ofNat (c.toNat + 32) else c

/-- JS `String.prototype.toLowerCase`, restricted to the ASCII simple case
mapping. -/
def jsToLower (s : String) : String := String.mk (s.data.map jsToLowerChar)

/-! ## Ticket reconciliation (merge + dedupe)

From the `/api/archived-tickets` route: `mapTicket` tags each record with
its source (`"archived"` or `"activeClosed"`); the merged list is
`[...archivedRows, ...activeClosedRows].filter(...)` keeping the first
occurrence of each `id` via a `seen` set. Only the fields the dedupe
consults (`id`) and the field the claim is about (`source`) are carried. -/

structure ClosedRow where
  id : String
  source : String
  deriving DecidableEq, Repr

/-- The relevant part of `mapTicket(ticket, source)`: tag a ticket id with
its provenance. -/
def mapTicketSource (tid : String) (src : String) : ClosedRow :=
  { id := tid, source := src }

/-- The `filter` with a `seen` set: keep a row iff its id has not been seen
yet, adding kept ids to `seen`. -/
def dedupeByIdGo (seen : List String) : List ClosedRow → List ClosedRow
  | [] => []
  | r :: rest =>
      if r.id ∈ seen then dedupeByIdGo seen rest
      else r :: dedupeByIdGo (r.id :: seen) rest

/-- `MERGE + DEDUPE`: concatenate archived rows before active-closed rows,
then keep the first occurrence of each id. -/
def mergeDedupe (archivedRows activeClosedRows : List ClosedRow) : List ClosedRow :=
  dedupeByIdGo [] (archivedRows ++ activeClosedRows)

/-- `allRows` of the archived-tickets route, starting from the two raw id
lists: archived tickets are mapped with source `"archived"`, active closed
tickets with source `"activeClosed"`, then merged and deduplicated. -/
def allRowsOf (archivedIds activeClosedIds : List String) : List ClosedRow :=
  mergeDedupe (archivedIds.map (fun i => mapTicketSource i "archived"))
    (activeClosedIds.map (fun i => mapTicketSource i "activeClosed"))

theorem id_not_seen_of_mem_dedupeGo {r : ClosedRow} :
    ∀ (rows : List ClosedRow) (seen : List String),
      r ∈ dedupeByIdGo seen rows → r.id ∉ seen
  | [], _, h => absurd h (List.not_mem_nil r)
  | x :: rest, seen, h => by
      unfold dedupeByIdGo at h
      by_cases hx : x.id ∈ seen
      · simp only [hx, if_pos] at h
        exact id_not_seen_of_mem_dedupeGo rest seen h
      · simp only [hx, if_neg, not_false_iff] at h
        rcases List.mem_cons.mp h with h1 | h2
        · subst h1; exact hx
        · have := id_not_seen_of_mem_dedupeGo rest (x.id :: seen) h2
          exact fun hc => this (List.mem_cons_of_mem _ hc)

theorem mem_of_mem_dedupeGo {r : ClosedRow} :
    ∀ (rows : List ClosedRow) (seen : List String),
      r ∈ dedupeByIdGo seen rows → r ∈ rows
  | [], _, h => absurd h (List.not_mem_nil r)
  | x :: rest, seen, h => by
      unfold dedupeByIdGo at h
      by_cases hx : x.id ∈ seen
      · simp only [hx, if_pos] at h
        exact List.mem_cons_of_mem _ (mem_of_mem_dedupeGo rest seen h)
      · simp only [hx, if_neg, not_false_iff] at h
        rcases List.mem_cons.mp h with h1 | h2
        · exact h1 ▸ List.mem_cons_self x rest
        · exact List.mem_cons_of_mem _ (mem_of_mem_dedupeGo rest (x.id :: seen) h2)

/-- A member of the deduplicated concatenation whose id occurs in the first
list is itself a member of the first list (the first occurrence wins). -/
theorem mem_left_of_mem_dedupeGo_append {r : ClosedRow} :
    ∀ (xs ys : List ClosedRow) (seen : List String),
      r ∈ dedupeByIdGo seen (xs ++ ys) → r.id ∈ xs.map ClosedRow.id → r ∈ xs
  | [], _, _, _, hid => absurd hid (by simp)
  | x :: xs, ys, seen, h, hid => by
      rw [List.cons_append] at h
      unfold dedupeByIdGo at h
      by_cases hx : x.id ∈ seen
      · simp only [hx, if_pos] at h
        rcases List.mem_map.mp hid with ⟨w, hw, hwid⟩
        rcases List.mem_cons.mp hw with h1 | h2
        · subst h1
          exact absurd (hwid ▸ hx) (id_not_seen_of_mem_dedupeGo (xs ++ ys) seen h)
        · exact List.mem_cons_of_mem _
            (mem_left_of_mem_dedupeGo_append xs ys seen h
              (List.mem_map.mpr ⟨w, h2, hwid⟩))
      · simp only [hx, if_neg, not_false_iff] at h
        rcases List.mem_cons.mp h with h1 | h2
        · exact h1 ▸ List.mem_cons_self x xs
        · rcases List.mem_map.mp hid with ⟨w, hw, hwid⟩
          rcases List.mem_cons.mp hw with h1 | h3
          · have hrx : r.id = x.id := by rw [← hwid, h1]
            have hns := id_not_seen_of_mem_dedupeGo (xs ++ ys) (x.id :: seen) h2
            exact absurd (by rw [hrx]; exact List.mem_cons_self x.id seen) hns
          · exact List.mem_cons_of_mem _
              (mem_left_of_mem_dedupeGo_append xs ys (x.id :: seen) h2
                (List.mem_map.mpr ⟨w, h3, hwid⟩))

/-- Occurrence count of an id in the deduplicated output: `0` if the id was
already seen, otherwise `1` if it occurs in the input at all, else `0`. -/
theorem count_id_dedupeGo (i : String) :
    ∀ (rows : List ClosedRow) (seen : List String),
      ((dedupeByIdGo seen rows).filter (fun r => r.id = i)).length =
        if i ∈ seen then 0
        else if i ∈ rows.map ClosedRow.id then 1 else 0
  | [], seen => by simp [dedupeByIdGo]
  | x :: rest, seen => by
      simp only [dedupeByIdGo]
      by_cases hx : x.id ∈ seen
      · rw [if_pos hx, count_id_dedupeGo i rest seen]
        by_cases hi : i ∈ seen
        · simp [hi]
        · have hne : ¬ i = x.id := fun h => hi (h ▸ hx)
          rw [if_neg hi, if_neg hi]
          simp only [List.map_cons, List.mem_cons]
          by_cases hr : i ∈ rest.map ClosedRow.id
          · simp [hr]
          · simp [hr, hne]
      · rw [if_neg hx, List.filter_cons]
        by_cases hxi : x.id = i
        · have hd : (decide (x.id = i)) = true := by simp [hxi]
          rw [hd]
          simp only [if_pos, List.length_cons]
          rw [count_id_dedupeGo i rest (x.id :: seen)]
          have hiseen : ¬ i ∈ seen := fun h => hx (hxi ▸ h)
          have hicons : i ∈ x.id :: seen := by
            rw [hxi]; exact List.mem_cons_self i seen
          rw [if_pos hicons, if_neg hiseen]
          have himap : i ∈ (x :: rest).map ClosedRow.id := by
            simp [List.map_cons, List.mem_cons, hxi]
          rw [if_pos himap]
        · have hd : (decide (x.id = i)) = false := by simp [hxi]
          rw [hd]
          simp only [Bool.false_eq_true, if_neg, not_false_iff]
          rw [count_id_dedupeGo i rest (x.id :: seen)]
          by_cases hi : i ∈ seen
          · have hicons : i ∈ x.id :: seen := List.mem_cons_of_mem _ hi
            rw [if_pos hicons, if_pos hi]
          · have hicons : ¬ i ∈ x.id :: seen := by
              intro hc
              rcases List.mem_cons.mp hc with h1 | h2
              · exact hxi h1.symm
              · exact hi h2
            rw [if_neg hicons, if_neg hi]
            have hne : ¬ i = x.id := fun h => hxi h.symm
            simp only [List.map_cons, List.mem_cons]
            by_cases hr : i ∈ rest.map ClosedRow.id
            · simp [hr]
            · simp [hr, hne]

/-- C1. After the merge + dedupe of the archived-tickets route, each ticket
id occurring in either input list appears exactly once in the output, and
whenever an id occurs in the archived input (in particular when it occurs
in both inputs) the surviving record is the archived-sourced one. -/
theorem reconcile_unique_archived_precedence
    (archivedIds activeClosedIds : List String) (i : String)
    (hmem : i ∈ archivedIds ∨ i ∈ activeClosedIds) :
    ((allRowsOf archivedIds activeClosedIds).filter (fun r => r.id = i)).length = 1 ∧
    (i ∈ archivedIds →
      ∀ r ∈ allRowsOf archivedIds activeClosedIds, r.id = i → r.source = "archived") := by
  constructor
  · unfold allRowsOf mergeDedupe
    rw [count_id_dedupeGo]
    have hin : i ∈ ((archivedIds.map (fun i => mapTicketSource i "archived")) ++
        (activeClosedIds.map (fun i => mapTicketSource i "activeClosed"))).map
          ClosedRow.id := by
      rw [List.map_append]
      rcases hmem with h | h
      · exact List.mem_append_left _
          (by simpa [mapTicketSource, List.map_map, Function.comp] using h)
      · exact List.mem_append_right _
          (by simpa [mapTicketSource, List.map_map, Function.comp] using h)
    rw [if_neg (List.not_mem_nil i), if_pos hin]
  · intro harch r hr hrid
    have hkey : r.id ∈ (archivedIds.map
        (fun i => mapTicketSource i "archived")).map ClosedRow.id := by
      simpa [mapTicketSource, List.map_map, Function.comp, hrid] using harch
    have hmemL := mem_left_of_mem_dedupeGo_append
      (archivedIds.map (fun i => mapTicketSource i "archived"))
      (activeClosedIds.map (fun i => mapTicketSource i "activeClosed")) [] hr hkey
    rcases List.mem_map.mp hmemL with ⟨w, _, hw⟩
    rw [← hw]
    rfl

theorem reconcile_unique_archived_precedence_witness :
    ((allRowsOf ["A1", "B2"] ["A1", "C3"]).filter (fun r => r.id = "A1")).length = 1 ∧
    (∀ r ∈ allRowsOf ["A1", "B2"] ["A1", "C3"], r.id = "A1" → r.source = "archived") := by
  have h := reconcile_unique_archived_precedence ["A1", "B2"] ["A1", "C3"] "A1"
    (Or.inl (by decide))
  exact ⟨h.1, h.2 (by decide)⟩

/-! ## Status normalization (server side)

The `statusMap` object of the server and the lookup
`statusMap[rawStatus] || "unassigned"` applied to
`(ticket.status || "").toLowerCase()`. -/

/-- The `statusMap` object literal, as a lookup returning `none` for keys
the object does not have. -/
def statusMapLookup (k : String) : Option String :=
  if k = "open" then some "open"
  else if k = "on hold" then some "hold"
  else if k = "hold" then some "hold"
  else if k = "closed" then some "closed"
  else if k = "in progress" then some "inProgress"
  else if k = "escalated" then some "escalated"
  else if k = "unassigned" then some "unassigned"
  else if k = "" then some "unassigned"
  else none

/-- `const rawStatus = (ticket.status || "").toLowerCase();`
`const normalizedStatus = statusMap[rawStatus] || "unassigned";` -/
def normalizedStatusOf (status : Option String) : String :=
  (statusMapLookup (jsToLower (jsOrStr status ""))).getD "unassigned"

/-- The keys the `statusMap` object has. -/
def statusMapKeys : List String :=
  ["open", "on hold", "hold", "closed", "in progress", "escalated", "unassigned", ""]

/-- A key outside the object's key set looks up to `undefined`. -/
theorem statusMapLookup_eq_none {k : String} (h : k ∉ statusMapKeys) :
    statusMapLookup k = none := by
  unfold statusMapLookup
  split_ifs with h1 h2 h3 h4 h5 h6 h7 h8
  · subst h1; exact absurd (by decide) h
  · subst h2; exact absurd (by decide) h
  · subst h3; exact absurd (by decide) h
  · subst h4; exact absurd (by decide) h
  · subst h5; exact absurd (by decide) h
  · subst h6; exact absurd (by decide) h
  · subst h7; exact absurd (by decide) h
  · subst h8; exact absurd (by decide) h
  · rfl

/-- C6 counterexample. The claim says a raw status outside the known set is
passed through lowercased; the code maps `"Resolved"` to the `"unassigned"`
sentinel instead of to `"resolved"`. -/
theorem normalizeStatus_no_passthrough :
    normalizedStatusOf (some "Resolved") = "unassigned" ∧
    normalizedStatusOf (some "Resolved") ≠ "resolved" := by
  constructor <;> decide

/-- C6 amended. The normalization is case-insensitive and maps
`"on hold"`/`"hold"` to `hold`, `"in progress"` to `inProgress`,
empty/missing to `unassigned`, `"escalated"` to `escalated`, `"closed"` to
`closed`; and every raw status whose lowercasing is outside the known key
set is mapped to the `"unassigned"` sentinel, not passed through. -/
theorem normalizeStatus_spec (s : String) :
    ((jsToLower s = "on hold" ∨ jsToLower s = "hold") →
      normalizedStatusOf (some s) = "hold") ∧
    (jsToLower s = "in progress" → normalizedStatusOf (some s) = "inProgress") ∧
    (jsToLower s = "escalated" → normalizedStatusOf (some s) = "escalated") ∧
    (jsToLower s = "closed" → normalizedStatusOf (some s) = "closed") ∧
    (normalizedStatusOf none = "unassigned" ∧ normalizedStatusOf (some "") = "unassigned") ∧
    (jsToLower s ∉ statusMapKeys → normalizedStatusOf (some s) = "unassigned") := by
  have hcore : ∀ t : Option String, normalizedStatusOf t =
      (statusMapLookup (jsToLower (jsOrStr t ""))).getD "unassigned" := fun _ => rfl
  by_cases hempty : s = ""
  · subst hempty
    refine ⟨?_, ?_, ?_, ?_, ⟨by decide, by decide⟩, ?_⟩ <;> intro h <;>
      exfalso <;> revert h <;> decide
  · have hjs : jsOrStr (some s) "" = s := by simp [jsOrStr, hempty]
    refine ⟨?_, ?_, ?_, ?_, ⟨by decide, by decide⟩, ?_⟩
    · rintro (h | h) <;> rw [hcore, hjs, h] <;> decide
    · intro h; rw [hcore, hjs, h]; decide
    · intro h; rw [hcore, hjs, h]; decide
    · intro h; rw [hcore, hjs, h]; decide
    · intro h
      rw [hcore, hjs, statusMapLookup_eq_none h]
      rfl

theorem normalizeStatus_spec_witness :
    normalizedStatusOf (some "On Hold") = "hold" ∧
    normalizedStatusOf (some "reopened") = "unassigned" := by
  refine ⟨(normalizeStatus_spec "On Hold").1 (Or.inl (by decide)), ?_⟩
  exact (normalizeStatus_spec "reopened").2.2.2.2.2 (by decide)

/-! ## Coarse age buckets

The per-status coarse bucket chain of the aging accumulation:
`age >= 0 && age < 16` / `age >= 16 && age < 31` / `age > 30`, tried in
that order. -/

inductive CoarseBucket where
  | oneToFifteen
  | sixteenToThirty
  | olderThanThirty
  deriving DecidableEq, Repr

/-- The coarse `if`/`else if` chain applied to a (fractional) age in days. -/
def coarseBucketOf (age : ℚ) : Option CoarseBucket :=
  if 0 ≤ age ∧ age < 16 then some CoarseBucket.oneToFifteen
  else if 16 ≤ age ∧ age < 31 then some CoarseBucket.sixteenToThirty
  else if age > 30 then some CoarseBucket.olderThanThirty
  else none

/-- C5 counterexample. The claim concludes that an age of exactly 30 days
lands in neither the second nor the third coarse bucket; the code places it
in the second bucket, because `30 < 31`. -/
theorem coarse_bucket_age30_in_second :
    coarseBucketOf 30 = some CoarseBucket.sixteenToThirty := by
  unfold coarseBucketOf
  norm_num

/-- C5 amended. Ages in `[0,16)` land in the first coarse bucket, ages in
`[16,31)` (including exactly 30) land in the second, and the third bucket
is reached exactly for ages `≥ 31` (the `> 30` guard sits behind the
second branch, which already captured `(30,31)`). -/
theorem coarse_bucket_boundaries (age : ℚ) :
    (0 ≤ age → age < 16 → coarseBucketOf age = some CoarseBucket.oneToFifteen) ∧
    (16 ≤ age → age < 31 → coarseBucketOf age = some CoarseBucket.sixteenToThirty) ∧
    (coarseBucketOf age = some CoarseBucket.olderThanThirty ↔ 31 ≤ age) := by
  unfold coarseBucketOf
  refine ⟨fun h1 h2 => by simp [h1, h2], fun h1 h2 => ?_, ?_⟩
  · have : ¬ (0 ≤ age ∧ age < 16) := by
      rintro ⟨_, hlt⟩; linarith
    simp [this, h1, h2]
  · constructor
    · intro h
      by_cases c1 : 0 ≤ age ∧ age < 16
      · simp [c1] at h
      · by_cases c2 : 16 ≤ age ∧ age < 31
        · simp [c1, c2] at h
        · by_cases c3 : age > 30
          · push_neg at c1 c2
            by_cases h16 : 16 ≤ age
            · have := c2 h16; linarith
            · linarith
          · simp [c1, c2, c3] at h
    · intro h
      have c1 : ¬ (0 ≤ age ∧ age < 16) := by rintro ⟨_, hlt⟩; linarith
      have c2 : ¬ (16 ≤ age ∧ age < 31) := by rintro ⟨_, hlt⟩; linarith
      have c3 : age > 30 := by linarith
      simp [c1, c2, c3]

theorem coarse_bucket_boundaries_witness :
    coarseBucketOf 30 = some CoarseBucket.sixteenToThirty ∧
    coarseBucketOf 31 = some CoarseBucket.olderThanThirty := by
  refine ⟨(coarse_bucket_boundaries 30).2.1 (by norm_num) (by norm_num), ?_⟩
  exact (coarse_bucket_boundaries 31).2.2.mpr (by norm_num)

/-! ## Aging accumulation (`userDeptAgingCounts`)

The per-ticket loop of the ticket-age route: each ticket is keyed by
(assignee, department); its normalized status together with its fractional
age in days selects fine buckets (ticket lists only) and coarse buckets
(count plus ticket list, updated together). The hand-rolled accumulator
object with one field pair per status and bucket is represented as a
function from (status, bucket) to an entry; the `if`/`else if` chains per
status all have the same shape, which the status-indexed representation
captures. The age computation `(now - new Date(createdTime)) / 86400000`
is a host-date primitive and is taken as the parameter `ageOf`; an
unparsable date produces a `NaN` age, which matches none of the bucket
conditions, exactly like `ageOf` returning `none` here. -/

inductive FineBucket where
  | oneToSeven
  | eightToFifteen
  | olderThanFifteen
  deriving DecidableEq, Repr

/-- The fine `if`/`else if` chain:
`age >= 0 && age < 8` / `age >= 8 && age < 16` / `age >= 16`. -/
def fineBucketOf (age : ℚ) : Option FineBucket :=
  if 0 ≤ age ∧ age < 8 then some FineBucket.oneToSeven
  else if 8 ≤ age ∧ age < 16 then some FineBucket.eightToFifteen
  else if 16 ≤ age then some FineBucket.olderThanFifteen
  else none

/-- One `...Count` / `...Tickets` field pair of the accumulator object.
Pushed ticket numbers are `Option String` because
`ticket.ticketNumber || ticket.id` can itself be `undefined`. -/
structure AgeEntry where
  count : ℕ
  ticketNumbers : List (Option String)
  deriving DecidableEq, Repr

/-- The aging accumulator for one (assignee, department) pair. -/
structure AgingState where
  coarse : String → CoarseBucket → AgeEntry
  fine : String → FineBucket → List (Option String)

/-- The freshly initialized accumulator: all counts `0`, all lists empty. -/
def initAgingState : AgingState :=
  { coarse := fun _ _ => { count := 0, ticketNumbers := [] }, fine := fun _ _ => [] }

/-- The four normalized statuses that receive aging buckets. -/
def openStatuses : List String := ["open", "hold", "inProgress", "escalated"]

/-- Push a ticket number onto a fine-granularity list (fine buckets carry
no count field in the source). -/
def pushFine (st : AgingState) (status : String) (b : FineBucket)
    (tn : Option String) : AgingState :=
  { st with fine := fun s' b' =>
      if s' = status ∧ b' = b then st.fine s' b' ++ [tn] else st.fine s' b' }

/-- The paired `agingCounts.xCount++` and `agingCounts.xTickets.push(...)`
of a coarse branch: increment the count and append the ticket number of the
selected entry together. -/
def pushCoarse (st : AgingState) (status : String) (b : CoarseBucket)
    (tn : Option String) : AgingState :=
  { st with coarse := fun s' b' =>
      if s' = status ∧ b' = b then
        { count := (st.coarse s' b').count + 1,
          ticketNumbers := (st.coarse s' b').ticketNumbers ++ [tn] }
      else st.coarse s' b' }

/-- The ticket fields the aging loop consults. -/
structure AgingTicket where
  status : Option String
  assigneeId : Option String
  departmentId : Option String
  ticketNumber : Option String
  id : Option String

/-- `assigneeRaw`/`isUnassignedAssignee`/`assigneeId` resolution: a missing
assignee id, or one whose lowercased text is `""`, `"none"` or `"null"`,
is keyed as `"unassigned"`; otherwise the original id is the key. -/
def assigneeKeyOf (t : AgingTicket) : String :=
  let raw := jsToLower (match t.assigneeId with | none => "" | some s => s)
  if raw = "" ∨ raw = "none" ∨ raw = "null" then "unassigned"
  else t.assigneeId.getD ""

/-- JS `a || b` where both operands may be `undefined` strings: the first
truthy operand, otherwise `b` verbatim. -/
def jsOrOptStr (a b : Option String) : Option String :=
  match a with
  | some s => if s = "" then b else some s
  | none => b

/-- The fine-granularity part of the aging branch: for the four bucketed
statuses, push the ticket number onto the fine list its age selects. -/
def agingFinePart (ns : String) (tn : Option String) (age : ℚ)
    (st : AgingState) : AgingState :=
  if ns ∈ openStatuses then
    match fineBucketOf age with
    | some fb => pushFine st ns fb tn
    | none => st
  else st

/-- The coarse-granularity part of the aging branch: the per-status
`if`/`else if` chains all push into the coarse entry of the ticket's own
status selected by its age. -/
def agingCoarsePart (ns : String) (tn : Option String) (age : ℚ)
    (st : AgingState) : AgingState :=
  if ns ∈ openStatuses then
    match coarseBucketOf age with
    | some cb => pushCoarse st ns cb tn
    | none => st
  else st

/-- The whole `if (ageDays !== null)` body for one ticket. -/
def agingTicketUpdate (ns : String) (tn : Option String) (age : ℚ)
    (st : AgingState) : AgingState :=
  agingCoarsePart ns tn age (agingFinePart ns tn age st)

/-- One iteration of `tickets.forEach` restricted to the
`userDeptAgingCounts` updates: resolve the (assignee, department) key, the
normalized status and the ticket number, then push into the fine and
coarse buckets selected by the ticket's age. -/
def userDeptAgingStep (ageOf : AgingTicket → Option ℚ)
    (state : String → String → AgingState) (t : AgingTicket) :
    String → String → AgingState :=
  match ageOf t with
  | none => state
  | some age => fun a d =>
      if a = assigneeKeyOf t ∧ d = jsOrStr t.departmentId "no_department" then
        agingTicketUpdate (normalizedStatusOf t.status)
          (jsOrOptStr t.ticketNumber t.id) age
          (state (assigneeKeyOf t) (jsOrStr t.departmentId "no_department"))
      else state a d

/-- The whole aging pass over a ticket list, starting from the
freshly-initialized accumulator table. -/
def userDeptAgingCounts (ageOf : AgingTicket → Option ℚ)
    (tickets : List AgingTicket) : String → String → AgingState :=
  tickets.foldl (userDeptAgingStep ageOf) (fun _ _ => initAgingState)

/-- The count/list invariant, for every entry of every accumulator. -/
def AgingInv (state : String → String → AgingState) : Prop :=
  ∀ a d s b, ((state a d).coarse s b).count =
    ((state a d).coarse s b).ticketNumbers.length

theorem agingInv_pushFine {st : AgingState}
    (h : ∀ s b, (st.coarse s b).count = (st.coarse s b).ticketNumbers.length)
    (status : String) (fb : FineBucket) (tn : Option String) :
    ∀ s b, ((pushFine st status fb tn).coarse s b).count =
      ((pushFine st status fb tn).coarse s b).ticketNumbers.length := by
  intro s b
  exact h s b

theorem agingInv_pushCoarse {st : AgingState}
    (h : ∀ s b, (st.coarse s b).count = (st.coarse s b).ticketNumbers.length)
    (status : String) (cb : CoarseBucket) (tn : Option String) :
    ∀ s b, ((pushCoarse st status cb tn).coarse s b).count =
      ((pushCoarse st status cb tn).coarse s b).ticketNumbers.length := by
  intro s b
  unfold pushCoarse
  dsimp only
  by_cases hc : s = status ∧ b = cb
  · rw [if_pos hc]
    simp [h s b]
  · rw [if_neg hc]
    exact h s b

theorem agingFinePart_coarse (ns : String) (tn : Option String) (age : ℚ)
    (st : AgingState) : (agingFinePart ns tn age st).coarse = st.coarse := by
  unfold agingFinePart
  by_cases ho : ns ∈ openStatuses
  · rw [if_pos ho]
    cases fineBucketOf age with
    | none => rfl
    | some fb => rfl
  · rw [if_neg ho]

theorem agingInv_update {st : AgingState}
    (h : ∀ s b, (st.coarse s b).count = (st.coarse s b).ticketNumbers.length)
    (ns : String) (tn : Option String) (age : ℚ) :
    ∀ s b, ((agingTicketUpdate ns tn age st).coarse s b).count =
      ((agingTicketUpdate ns tn age st).coarse s b).ticketNumbers.length := by
  unfold agingTicketUpdate agingCoarsePart
  have h1 : ∀ s b,
      ((agingFinePart ns tn age st).coarse s b).count =
        ((agingFinePart ns tn age st).coarse s b).ticketNumbers.length := by
    rw [agingFinePart_coarse]
    exact h
  by_cases ho : ns ∈ openStatuses
  · rw [if_pos ho]
    cases coarseBucketOf age with
    | none => exact h1
    | some cb => exact agingInv_pushCoarse h1 ns cb tn
  · rw [if_neg ho]
    exact h1

theorem agingInv_step (ageOf : AgingTicket → Option ℚ)
    {state : String → String → AgingState} (h : AgingInv state)
    (t : AgingTicket) : AgingInv (userDeptAgingStep ageOf state t) := by
  intro a d s b
  unfold userDeptAgingStep
  cases hage : ageOf t with
  | none => exact h a d s b
  | some age =>
      dsimp only
      by_cases hk : a = assigneeKeyOf t ∧ d = jsOrStr t.departmentId "no_department"
      · rw [if_pos hk]
        exact agingInv_update (fun s b => h _ _ s b) _ _ age s b
      · rw [if_neg hk]
        exact h a d s b

theorem agingInv_foldl (ageOf : AgingTicket → Option ℚ) :
    ∀ (tickets : List AgingTicket) (state : String → String → AgingState),
      AgingInv state → AgingInv (tickets.foldl (userDeptAgingStep ageOf) state)
  | [], _, h => h
  | t :: ts, state, h =>
      agingInv_foldl ageOf ts (userDeptAgingStep ageOf state t)
        (agingInv_step ageOf h t)

/-- C4. For every input ticket list, every date semantics, every
(assignee, department) pair, every status and every coarse bucket, the
accumulated entry satisfies `count = ticketNumbers.length`: counts and
ticket lists are only ever updated together. -/
theorem aging_count_eq_ticketNumbers_length (ageOf : AgingTicket → Option ℚ)
    (tickets : List AgingTicket) (a d s : String) (b : CoarseBucket) :
    (((userDeptAgingCounts ageOf tickets) a d).coarse s b).count =
      (((userDeptAgingCounts ageOf tickets) a d).coarse s b).ticketNumbers.length :=
  agingInv_foldl ageOf tickets _ (fun _ _ _ _ => rfl) a d s b

/-! ## Pagination

`totalPages = Math.max(1, Math.ceil(rows.length / pageSize))` and
`rows.slice((page - 1) * pageSize, start + pageSize)`, with the page kept
in range only by the Prev/Next click handlers
(`Math.max(1, p - 1)` / `Math.min(totalPages, p + 1)`). -/

/-- `Math.max(1, Math.ceil(len / pageSize))` for a positive `pageSize`
(the source uses the constants 500 and 200): on naturals,
`ceil (len / ps) = (len + ps - 1) / ps`. -/
def totalPagesOf (len pageSize : ℕ) : ℕ :=
  max 1 ((len + pageSize - 1) / pageSize)

/-- `rows.slice((page - 1) * pageSize, (page - 1) * pageSize + pageSize)`
for a 1-based page number. -/
def pagedRowsOf {α : Type} (rows : List α) (page pageSize : ℕ) : List α :=
  (rows.drop ((page - 1) * pageSize)).take pageSize

/-- Next-button handler: `p => Math.min(totalPages, p + 1)`. -/
def nextPageClick (totalPages p : ℕ) : ℕ := min totalPages (p + 1)

/-- Prev-button handler: `p => Math.max(1, p - 1)`. -/
def prevPageClick (p : ℕ) : ℕ := max 1 (p - 1)

theorem le_ceilDiv_mul {ps : ℕ} (hps : 0 < ps) (len : ℕ) :
    len ≤ ((len + ps - 1) / ps) * ps := by
  by_contra hlt
  push_neg at hlt
  have hq : ((len + ps - 1) / ps) * ps + 1 ≤ len := hlt
  have hsucc : (((len + ps - 1) / ps) + 1) * ps ≤ len + ps - 1 := by
    have : ((len + ps - 1) / ps) * ps + ps ≤ len + ps - 1 := by omega
    linarith [Nat.add_mul ((len + ps - 1) / ps) 1 ps]
  have := (Nat.le_div_iff_mul_le hps).mpr hsucc
  omega

theorem pred_ceilDiv_mul_lt {ps len : ℕ} (hps : 0 < ps) (hlen : 0 < len) :
    (((len + ps - 1) / ps) - 1) * ps < len := by
  have hmul : ((len + ps - 1) / ps) * ps ≤ len + ps - 1 := Nat.div_mul_le_self _ _
  have hsub : (((len + ps - 1) / ps) - 1) * ps =
      ((len + ps - 1) / ps) * ps - ps := Nat.sub_one_mul _ _ ▸ rfl
  set t := ((len + ps - 1) / ps) * ps with ht
  omega

/-- C8 counterexample. With 45 rows and page size 20, `totalPages` is 3,
but requesting page 99 yields the empty slice, not page 3's non-empty
slice: the slicing computation does not clamp. -/
theorem paginate_no_clamp :
    totalPagesOf 45 20 = 3 ∧
    pagedRowsOf (List.range 45) 99 20 = [] ∧
    pagedRowsOf (List.range 45) 3 20 ≠ [] := by
  refine ⟨by decide, ?_, by decide⟩
  have : (List.range 45).drop 1960 = [] := by
    rw [List.drop_eq_nil_of_le]
    simp
  simp [pagedRowsOf, this]

/-- C8 amended. `totalPages = max(1, ceil(len / pageSize))` (stated by its
ceiling characterization); a page beyond `totalPages` produces an empty
slice rather than a clamped page or an exception; every page in
`[1, totalPages]` of a non-empty row list produces a non-empty slice; and
the Prev/Next click handlers are what keeps the page within
`[1, totalPages]`. -/
theorem paginate_spec {α : Type} (rows : List α) (page pageSize : ℕ)
    (hps : 0 < pageSize) :
    (rows.length ≤ totalPagesOf rows.length pageSize * pageSize) ∧
    (rows = [] → totalPagesOf rows.length pageSize = 1) ∧
    (rows ≠ [] →
      (totalPagesOf rows.length pageSize - 1) * pageSize < rows.length) ∧
    (totalPagesOf rows.length pageSize < page →
      pagedRowsOf rows page pageSize = []) ∧
    (1 ≤ page → page ≤ totalPagesOf rows.length pageSize → rows ≠ [] →
      pagedRowsOf rows page pageSize ≠ []) ∧
    (1 ≤ prevPageClick page ∧ (1 ≤ page → prevPageClick page ≤ page)) ∧
    (1 ≤ nextPageClick (totalPagesOf rows.length pageSize) page ∧
      nextPageClick (totalPagesOf rows.length pageSize) page ≤
        totalPagesOf rows.length pageSize) := by
  have hceil := le_ceilDiv_mul hps rows.length
  have htp : rows.length ≤ totalPagesOf rows.length pageSize * pageSize := by
    unfold totalPagesOf
    calc rows.length ≤ ((rows.length + pageSize - 1) / pageSize) * pageSize := hceil
    _ ≤ max 1 ((rows.length + pageSize - 1) / pageSize) * pageSize :=
        mul_le_mul_right' (le_max_right _ _) pageSize
  have hlast : rows ≠ [] →
      (totalPagesOf rows.length pageSize - 1) * pageSize < rows.length := by
    intro hne
    have hlen : 0 < rows.length := List.length_pos.mpr hne
    have h1 : 1 ≤ (rows.length + pageSize - 1) / pageSize := by
      rw [Nat.le_div_iff_mul_le hps]
      omega
    unfold totalPagesOf
    rw [max_eq_right h1]
    exact pred_ceilDiv_mul_lt hps hlen
  refine ⟨htp, ?_, hlast, ?_, ?_, ?_, ?_⟩
  · intro hnil
    subst hnil
    unfold totalPagesOf
    simp only [List.length_nil, Nat.zero_add]
    rw [Nat.div_eq_of_lt (by omega)]
    decide
  · intro hgt
    have hpg : totalPagesOf rows.length pageSize ≤ page - 1 := by omega
    have hle : rows.length ≤ (page - 1) * pageSize := by
      calc rows.length ≤ totalPagesOf rows.length pageSize * pageSize := htp
      _ ≤ (page - 1) * pageSize := mul_le_mul_right' hpg pageSize
    unfold pagedRowsOf
    rw [List.drop_eq_nil_of_le hle, List.take_nil]
  · intro h1 h2 hne
    have hpg : page - 1 ≤ totalPagesOf rows.length pageSize - 1 := by omega
    have hlt : (page - 1) * pageSize < rows.length := by
      calc (page - 1) * pageSize
          ≤ (totalPagesOf rows.length pageSize - 1) * pageSize :=
            mul_le_mul_right' hpg pageSize
      _ < rows.length := hlast hne
    unfold pagedRowsOf
    intro hnil
    have hlen0 := congrArg List.length hnil
    rw [List.length_take, List.length_drop, List.length_nil] at hlen0
    omega
  · refine ⟨le_max_left _ _, ?_⟩
    intro hp
    unfold prevPageClick
    omega
  · constructor
    · unfold nextPageClick totalPagesOf
      omega
    · exact min_le_left _ _

theorem paginate_spec_witness :
    totalPagesOf 45 20 = 3 ∧ pagedRowsOf (List.range 45) 99 20 = [] := by
  have h := paginate_spec (List.range 45) 99 20 (by norm_num)
  refine ⟨by decide, ?_⟩
  exact h.2.2.2.1 (by decide)

/-! ## Character-level string utilities

JS regular-expression matching and number parsing are embedded over
`List Char`. -/

/-- `\d`. -/
def isDigitCh (c : Char) : Bool := decide ('0' ≤ c) && decide (c ≤ '9')

/-- `\s`, restricted to the whitespace characters that can occur in the
embedded data (space, tab, newline, carriage return). -/
def isWsCh (c : Char) : Bool := c = ' ' || c = '\t' || c = '\n' || c = '\r'

/-- Numeric value of a digit character. -/
def digitVal (c : Char) : ℕ := c.toNat - '0'.toNat

/-- Value of a digit string read in base 10. -/
def digitsToNat (ds : List Char) : ℕ :=
  ds.foldl (fun n c => 10 * n + digitVal c) 0

/-- JS `String.prototype.trim`: strip leading and trailing whitespace. -/
def strTrim (s : String) : String :=
  String.mk (((s.data.dropWhile isWsCh).reverse.dropWhile isWsCh).reverse)

/-- Scan an unanchored pattern across a string: try the matcher at every
start position, leftmost first, like `String.prototype.match` with an
unanchored regex. -/
def scanOpt {β : Type} (f : List Char → Option β) : List Char → Option β
  | [] => f []
  | c :: rest =>
      match f (c :: rest) with
      | some v => some v
      | none => scanOpt f rest

/-! ## Duration parsing (`parseZohoDurationToHours`)

The three regexes, tried in order:
`(\d+)\s*days?\s+(\d{1,2}):(\d{2})\s*hrs?`, then
`(\d{1,2}):(\d{2})\s*hrs?`, then `(\d+(\.\d+)?)` with `parseFloat`.
Each is embedded as an at-position matcher (with the one-or-two-digit
backtracking of `\d{1,2}` done explicitly) scanned by `scanOpt`. -/

/-- `(\d{1,2}):(\d{2})\s*hrs?` at the current position: one or two hour
digits (two preferred), a colon, exactly two minute digits, optional
whitespace, then `hr` (with `s` optional and trailing text ignored). -/
def matchHMhrsAt (s : List Char) : Option (ℕ × ℕ) :=
  let suffixOk : List Char → Bool := fun r =>
    match r.dropWhile isWsCh with
    | 'h' :: 'r' :: _ => true
    | _ => false
  match s with
  | a :: b :: ':' :: c :: d :: rest =>
      if isDigitCh a && isDigitCh b && isDigitCh c && isDigitCh d &&
          suffixOk rest then
        some (digitsToNat [a, b], digitsToNat [c, d])
      else
        match s with
        | a' :: ':' :: c' :: d' :: rest' =>
            if isDigitCh a' && isDigitCh c' && isDigitCh d' &&
                suffixOk rest' then
              some (digitVal a', digitsToNat [c', d'])
            else none
        | _ => none
  | a :: ':' :: c :: d :: rest =>
      if isDigitCh a && isDigitCh c && isDigitCh d && suffixOk rest then
        some (digitVal a, digitsToNat [c, d])
      else none
  | _ => none

/-- `(\d+)\s*days?\s+(\d{1,2}):(\d{2})\s*hrs?` at the current position. -/
def matchDaysHMAt (s : List Char) : Option (ℕ × ℕ × ℕ) :=
  let ds := s.takeWhile isDigitCh
  if ds.isEmpty then none
  else
    let r1 := (s.dropWhile isDigitCh).dropWhile isWsCh
    match r1 with
    | 'd' :: 'a' :: 'y' :: r2 =>
        let r3 := match r2 with
          | 's' :: r => r
          | _ => r2
        match r3 with
        | c :: _ =>
            if isWsCh c then
              match matchHMhrsAt (r3.dropWhile isWsCh) with
              | some (h, m) => some (digitsToNat ds, h, m)
              | none => none
            else none
        | [] => none
    | _ => none

/-- `(\d+(\.\d+)?)` at the current position, with `parseFloat` applied to
the match. -/
def matchNumAt (s : List Char) : Option ℚ :=
  let ds := s.takeWhile isDigitCh
  if ds.isEmpty then none
  else
    match s.dropWhile isDigitCh with
    | '.' :: r2 =>
        let fs := r2.takeWhile isDigitCh
        if fs.isEmpty then some (digitsToNat ds : ℚ)
        else some ((digitsToNat ds : ℚ) +
          (digitsToNat fs : ℚ) / ((10 : ℚ) ^ fs.length))
    | _ => some (digitsToNat ds : ℚ)

/-- The server's `parseZohoDurationToHours`: falsy or non-string input
parses to `0`; otherwise the trimmed, lowercased text is matched against
the three patterns in priority order; no match parses to `0`. -/
def parseZohoDurationToHours (str : Option String) : ℚ :=
  match str with
  | none => 0
  | some s0 =>
      if s0 = "" then 0
      else
        let s := (jsToLower (strTrim s0)).data
        match scanOpt matchDaysHMAt s with
        | some (d, h, m) => (d : ℚ) * 24 + (h : ℚ) + (m : ℚ) / 60
        | none =>
            match scanOpt matchHMhrsAt s with
            | some (h, m) => (h : ℚ) + (m : ℚ) / 60
            | none =>
                match scanOpt matchNumAt s with
                | some q => q
                | none => 0

/-- Modelled from the spec: the frontend utility `zohoHrsToMinutes`
(imported from `./utils`, which is not among the sources) is the
`minutesFromDurationText` contract of the spec — it returns `null` (not
`0`) when the source field is absent or empty, so that aggregators can
exclude it, and otherwise the duration in minutes for the Zoho duration
encodings; unparsable text is likewise treated as unknown. -/
def zohoHrsToMinutes (txt : Option String) : Option ℚ :=
  match txt with
  | none => none
  | some s0 =>
      if strTrim s0 = "" then none
      else
        let s := (jsToLower (strTrim s0)).data
        match scanOpt matchDaysHMAt s with
        | some (d, h, m) => some ((d : ℚ) * 1440 + (h : ℚ) * 60 + (m : ℚ))
        | none =>
            match scanOpt matchHMhrsAt s with
            | some (h, m) => some ((h : ℚ) * 60 + (m : ℚ))
            | none =>
                match scanOpt matchNumAt s with
                | some q => some (q * 60)
                | none => none

/-! ## Per-agent duration averages (`agentAverageMap`)

The client-side accumulator keyed by `row.agentName || "Unknown"`: a
present, parsable duration adds its minute value to the sum and `1` to the
count; a `null` parse adds to neither. The final average is
`Math.round(sum / count)` when the count is positive, else `null`
(displayed `"-"`). -/

structure MetricsRowA where
  agentName : Option String
  firstResponseTime : Option String
  resolutionTime : Option String

structure AvgAcc where
  frSum : ℚ
  frCount : ℕ
  resSum : ℚ
  resCount : ℕ
  deriving DecidableEq, Repr

def avgAccInit : AvgAcc := { frSum := 0, frCount := 0, resSum := 0, resCount := 0 }

/-- One iteration of the `sortedMetricsRows.forEach` accumulation. -/
def agentAvgStep (acc : String → Option AvgAcc) (row : MetricsRowA) :
    String → Option AvgAcc :=
  let name := jsOrStr row.agentName "Unknown"
  let cur := (acc name).getD avgAccInit
  let cur1 :=
    match zohoHrsToMinutes row.firstResponseTime with
    | some v => { cur with frSum := cur.frSum + v, frCount := cur.frCount + 1 }
    | none => cur
  let cur2 :=
    match zohoHrsToMinutes row.resolutionTime with
    | some v => { cur1 with resSum := cur1.resSum + v, resCount := cur1.resCount + 1 }
    | none => cur1
  fun n => if n = name then some cur2 else acc n

/-- The whole accumulation pass of `agentAverageMap`. -/
def agentAverageAcc (rows : List MetricsRowA) : String → Option AvgAcc :=
  rows.foldl agentAvgStep (fun _ => none)

/-- The output step of `agentAverageMap`: rounded mean when the count is
positive, `null` otherwise, for first-response and resolution. -/
def avgOfAcc (v : AvgAcc) : Option ℤ × Option ℤ :=
  (if 0 < v.frCount then some (jsRound (v.frSum / (v.frCount : ℚ))) else none,
   if 0 < v.resCount then some (jsRound (v.resSum / (v.resCount : ℚ))) else none)

/-- The first-response minute values present (parsable) among the rows of
one agent. -/
def presentFRValues (rows : List MetricsRowA) (name : String) : List ℚ :=
  (rows.filter (fun r => jsOrStr r.agentName "Unknown" = name)).filterMap
    (fun r => zohoHrsToMinutes r.firstResponseTime)

/-- The resolution minute values present (parsable) among the rows of one
agent. -/
def presentResValues (rows : List MetricsRowA) (name : String) : List ℚ :=
  (rows.filter (fun r => jsOrStr r.agentName "Unknown" = name)).filterMap
    (fun r => zohoHrsToMinutes r.resolutionTime)

theorem agentAvgAcc_go (name : String) :
    ∀ (rows : List MetricsRowA) (acc : String → Option AvgAcc),
      ((rows.foldl agentAvgStep acc) name).getD avgAccInit =
        { frSum := ((acc name).getD avgAccInit).frSum + (presentFRValues rows name).sum,
          frCount := ((acc name).getD avgAccInit).frCount + (presentFRValues rows name).length,
          resSum := ((acc name).getD avgAccInit).resSum + (presentResValues rows name).sum,
          resCount := ((acc name).getD avgAccInit).resCount + (presentResValues rows name).length }
  | [], acc => by simp [presentFRValues, presentResValues]
  | r :: rs, acc => by
      rw [List.foldl_cons, agentAvgAcc_go name rs (agentAvgStep acc r)]
      by_cases hn : name = jsOrStr r.agentName "Unknown"
      · subst hn
        have hfilter : (r :: rs).filter
              (fun x => jsOrStr x.agentName "Unknown" = jsOrStr r.agentName "Unknown") =
            r :: rs.filter
              (fun x => jsOrStr x.agentName "Unknown" = jsOrStr r.agentName "Unknown") := by
          rw [List.filter_cons]
          simp
        unfold presentFRValues presentResValues
        rw [hfilter, List.filterMap_cons, List.filterMap_cons]
        cases hfr : zohoHrsToMinutes r.firstResponseTime <;>
          cases hres : zohoHrsToMinutes r.resolutionTime <;>
            simp [agentAvgStep, hfr, hres, AvgAcc.mk.injEq, add_assoc, add_comm,
              add_left_comm]
      · have hne : ¬ (jsOrStr r.agentName "Unknown" = name) := fun h => hn h.symm
        have hstep : (agentAvgStep acc r) name = acc name := by
          simp only [agentAvgStep]
          rw [if_neg hn]
        rw [hstep]
        unfold presentFRValues presentResValues
        rw [List.filter_cons]
        simp [hne]

/-- C2 amended (client side). For every row collection and agent, the
accumulated first-response and resolution sums and counts of
`agentAverageMap` equal the sum and count of the present (non-null,
parsable) values of that agent's rows — a missing or unparsable duration
contributes to neither — and the published average is the rounded mean of
the present values, `null` when no value is present. -/
theorem agentAverage_exclusion (rows : List MetricsRowA) (name : String) :
    ((agentAverageAcc rows name).getD avgAccInit).frSum = (presentFRValues rows name).sum ∧
    ((agentAverageAcc rows name).getD avgAccInit).frCount = (presentFRValues rows name).length ∧
    ((agentAverageAcc rows name).getD avgAccInit).resSum = (presentResValues rows name).sum ∧
    ((agentAverageAcc rows name).getD avgAccInit).resCount = (presentResValues rows name).length ∧
    avgOfAcc ((agentAverageAcc rows name).getD avgAccInit) =
      ((if 0 < (presentFRValues rows name).length then
          some (jsRound ((presentFRValues rows name).sum / ((presentFRValues rows name).length : ℚ)))
        else none),
       (if 0 < (presentResValues rows name).length then
          some (jsRound ((presentResValues rows name).sum / ((presentResValues rows name).length : ℚ)))
        else none)) := by
  have h := agentAvgAcc_go name rows (fun _ => none)
  unfold agentAverageAcc
  rw [h]
  simp [avgAccInit, avgOfAcc]

/-! ## Resolution overlay of `/api/agent-performance` (server)

Phase 2 of the server route: for each metrics row whose ticket's recorded
status is resolved-like, `parseZohoDurationToHours(row.resolutionTime)` is
accumulated under the guard `resHrs >= 0`. The status table lookup
`statusMapLocal[ticketId] || ""` is taken as the parameter `statusTbl`. -/

def resolvedStatuses : List String := ["resolved", "closed", "archived", "completed"]

structure OverlayRow where
  agentId : Option String
  assigneeId : Option String
  ticketNumber : Option String
  id : Option String
  resolutionTime : Option String

/-- One iteration of the `metricRows.forEach` overlay: the accumulator maps
an agent key to its `(totalResolutionHours, resolutionCount)` pair. -/
def overlayStep (statusTbl : String → String)
    (acc : String → Option (ℚ × ℕ)) (row : OverlayRow) :
    String → Option (ℚ × ℕ) :=
  let agentKey := jsOrStr row.agentId (jsOrStr row.assigneeId "unassigned")
  let ticketId := jsOrStr row.ticketNumber (jsOrStr row.id "")
  if ticketId = "" then acc
  else
    let cur := (acc agentKey).getD (0, 0)
    if statusTbl ticketId ∈ resolvedStatuses then
      if 0 ≤ parseZohoDurationToHours row.resolutionTime then
        fun k => if k = agentKey then
          some (cur.1 + parseZohoDurationToHours row.resolutionTime, cur.2 + 1)
        else acc k
      else fun k => if k = agentKey then some cur else acc k
    else fun k => if k = agentKey then some cur else acc k

/-- The whole overlay pass. -/
def overlayAcc (statusTbl : String → String) (rows : List OverlayRow) :
    String → Option (ℚ × ℕ) :=
  rows.foldl (overlayStep statusTbl) (fun _ => none)

/-- `avgRes`: `totalResolutionHours / resolutionCount` when the count is
positive, else `0`. -/
def avgResOf (p : ℚ × ℕ) : ℚ := if 0 < p.2 then p.1 / (p.2 : ℚ) else 0

/-- C2 counterexample (server side). A resolved ticket whose
`resolutionTime` is absent parses to `0`, passes the `resHrs >= 0` guard,
and is counted: the denominator becomes `1` although no row contributes a
present value — the ticket is counted as a zero-duration ticket, which the
claim rules out. -/
theorem overlay_counts_missing_duration :
    (overlayAcc (fun _ => "closed")
        [{ agentId := some "a1", assigneeId := none,
           ticketNumber := some "1001", id := none,
           resolutionTime := none }] ) "a1" = some (0, 1) ∧
    avgResOf (((overlayAcc (fun _ => "closed")
        [{ agentId := some "a1", assigneeId := none,
           ticketNumber := some "1001", id := none,
           resolutionTime := none }] ) "a1").getD (0, 0)) = 0 := by
  have hstep : (overlayAcc (fun _ => "closed")
      [{ agentId := some "a1", assigneeId := none,
         ticketNumber := some "1001", id := none,
         resolutionTime := none }] ) "a1" = some (0, 1) := by
    show (overlayStep (fun _ => "closed") (fun _ => none)
        { agentId := some "a1", assigneeId := none,
          ticketNumber := some "1001", id := none,
          resolutionTime := none }) "a1" = some (0, 1)
    simp only [overlayStep]
    norm_num [jsOrStr, resolvedStatuses, parseZohoDurationToHours]
    decide
  refine ⟨hstep, ?_⟩
  rw [hstep]
  simp [avgResOf]

/-! ## Agent performance aggregation (`agentPerformanceRoutes.js`)

The standalone route builds `ticketStatusMap` from the merged ticket list
FIRST (last write per key wins), then classifies each metrics row's ticket
id into `resolvedIds` or `pendingIds` by looking the status up in that
fixed table. JS `Set`s preserve insertion order, so they are embedded as
duplicate-free lists with append-if-absent insertion. -/

/-- JS `Set.prototype.add`: append if not already present. -/
def addIfAbsent (l : List String) (x : String) : List String :=
  if x ∈ l then l else l ++ [x]

structure StatusTicket where
  ticketNumber : Option String
  id : Option String
  status : Option String

/-- `ticketStatusMap[key] = (t.status || "").toLowerCase()` for
`key = String(t.ticketNumber || t.id || "")` when non-empty. -/
def statusTblStep (tbl : String → Option String) (t : StatusTicket) :
    String → Option String :=
  let key := jsOrStr t.ticketNumber (jsOrStr t.id "")
  if key = "" then tbl
  else fun k => if k = key then some (jsToLower (jsOrStr t.status "")) else tbl k

/-- The whole `allTickets.forEach` status-table pass. -/
def buildTicketStatusTbl (tickets : List StatusTicket) : String → Option String :=
  tickets.foldl statusTblStep (fun _ => none)

/-- `status === "closed" || status === "resolved"` on the looked-up status
(`ticketStatusMap[ticketId] || ""`). -/
def isResolvedStatusB (s : String) : Bool :=
  if s = "closed" ∨ s = "resolved" then true else false

structure PerfRow where
  agentName : Option String
  ticketNumber : Option String
  id : Option String
  resolutionTime : Option String
  firstResponseTime : Option String
  threadCount : Option ℚ
  responseCount : Option ℚ

structure PerfBucket where
  ticketIds : List String
  resolvedIds : List String
  pendingIds : List String
  totalResolutionHours : ℚ
  resolutionCount : ℕ
  totalFirstResponseHours : ℚ
  firstResponseCount : ℕ
  totalThreads : ℚ
  threadCount : ℕ
  deriving DecidableEq, Repr

def emptyPerfBucket : PerfBucket :=
  { ticketIds := [], resolvedIds := [], pendingIds := [],
    totalResolutionHours := 0, resolutionCount := 0,
    totalFirstResponseHours := 0, firstResponseCount := 0,
    totalThreads := 0, threadCount := 0 }

/-- JS `a || b` on possibly-undefined numbers: `0` is falsy. -/
def jsOrOptQ (a b : Option ℚ) : Option ℚ :=
  match a with
  | some q => if q = 0 then b else some q
  | none => b

/-- The duration/thread accumulations of the metrics loop (they never touch
the three id sets). -/
def perfNumeric (row : PerfRow) (b : PerfBucket) : PerfBucket :=
  let b3 :=
    if 0 < parseZohoDurationToHours row.resolutionTime then
      { b with
        totalResolutionHours :=
          b.totalResolutionHours + parseZohoDurationToHours row.resolutionTime,
        resolutionCount := b.resolutionCount + 1 }
    else b
  let b4 :=
    if 0 < parseZohoDurationToHours row.firstResponseTime then
      { b3 with
        totalFirstResponseHours :=
          b3.totalFirstResponseHours + parseZohoDurationToHours row.firstResponseTime,
        firstResponseCount := b3.firstResponseCount + 1 }
    else b3
  let threads := (jsOrOptQ row.threadCount row.responseCount).getD 0
  if 0 < threads then
    { b4 with
      totalThreads := b4.totalThreads + threads,
      threadCount := b4.threadCount + 1 }
  else b4

/-- One iteration of the `metricRows.forEach` aggregation. -/
def perfStep (tbl : String → Option String) (acc : String → Option PerfBucket)
    (row : PerfRow) : String → Option PerfBucket :=
  let agentName := jsOrStr row.agentName "Unassigned"
  let ticketId := jsOrStr row.ticketNumber (jsOrStr row.id "")
  if ticketId = "" then acc
  else
    let b0 := (acc agentName).getD emptyPerfBucket
    let b1 := { b0 with ticketIds := addIfAbsent b0.ticketIds ticketId }
    let b2 :=
      if isResolvedStatusB (jsOrStr (tbl ticketId) "") = true then
        { b1 with resolvedIds := addIfAbsent b1.resolvedIds ticketId }
      else { b1 with pendingIds := addIfAbsent b1.pendingIds ticketId }
    fun k => if k = agentName then some (perfNumeric row b2) else acc k

/-- The whole metrics aggregation pass of the standalone route. -/
def perfAgentsMap (tbl : String → Option String) (rows : List PerfRow) :
    String → Option PerfBucket :=
  rows.foldl (perfStep tbl) (fun _ => none)

/-- The classification of a ticket id the route applies, as a predicate of
the fixed status table. -/
def classifiesResolved (tbl : String → Option String) (tid : String) : Bool :=
  isResolvedStatusB (jsOrStr (tbl tid) "")

/-- The id sets are filters of the (insertion-ordered) ticket id set. -/
def PerfInv (tbl : String → Option String)
    (acc : String → Option PerfBucket) : Prop :=
  ∀ a, ((acc a).getD emptyPerfBucket).resolvedIds =
      ((acc a).getD emptyPerfBucket).ticketIds.filter (classifiesResolved tbl) ∧
    ((acc a).getD emptyPerfBucket).pendingIds =
      ((acc a).getD emptyPerfBucket).ticketIds.filter
        (fun t => !(classifiesResolved tbl t))

theorem perfNumeric_ticketIds (row : PerfRow) (b : PerfBucket) :
    (perfNumeric row b).ticketIds = b.ticketIds ∧
    (perfNumeric row b).resolvedIds = b.resolvedIds ∧
    (perfNumeric row b).pendingIds = b.pendingIds := by
  simp only [perfNumeric]
  split_ifs <;> exact ⟨rfl, rfl, rfl⟩

theorem perfInv_step (tbl : String → Option String)
    {acc : String → Option PerfBucket} (h : PerfInv tbl acc) (row : PerfRow) :
    PerfInv tbl (perfStep tbl acc row) := by
  intro a
  unfold perfStep
  by_cases htid : jsOrStr row.ticketNumber (jsOrStr row.id "") = ""
  · rw [if_pos htid]
    exact h a
  · rw [if_neg htid]
    by_cases ha : a = jsOrStr row.agentName "Unassigned"
    · dsimp only
      rw [if_pos ha]
      simp only [Option.getD_some]
      obtain ⟨hres, hpen⟩ := h (jsOrStr row.agentName "Unassigned")
      set b0 := (acc (jsOrStr row.agentName "Unassigned")).getD emptyPerfBucket with hb0
      set tid := jsOrStr row.ticketNumber (jsOrStr row.id "") with htidd
      have hids := perfNumeric_ticketIds row
      by_cases hmem : tid ∈ b0.ticketIds
      · have hadd : addIfAbsent b0.ticketIds tid = b0.ticketIds := if_pos hmem
        by_cases hcls : isResolvedStatusB (jsOrStr (tbl tid) "") = true
        · rw [if_pos hcls]
          have hmemres : tid ∈ b0.resolvedIds := by
            rw [hres, List.mem_filter]
            exact ⟨hmem, by simpa [classifiesResolved] using hcls⟩
          have haddr : addIfAbsent b0.resolvedIds tid = b0.resolvedIds :=
            if_pos hmemres
          constructor
          · rw [(hids _).1, (hids _).2.1]
            simp only [hadd, haddr]
            exact hres
          · rw [(hids _).1, (hids _).2.2]
            simp only [hadd]
            exact hpen
        · rw [if_neg hcls]
          have hmempen : tid ∈ b0.pendingIds := by
            rw [hpen, List.mem_filter]
            refine ⟨hmem, ?_⟩
            simp only [classifiesResolved, Bool.not_eq_true'] at hcls ⊢
            simpa using hcls
          have haddp : addIfAbsent b0.pendingIds tid = b0.pendingIds :=
            if_pos hmempen
          constructor
          · rw [(hids _).1, (hids _).2.1]
            simp only [hadd]
            exact hres
          · rw [(hids _).1, (hids _).2.2]
            simp only [hadd, haddp]
            exact hpen
      · have hadd : addIfAbsent b0.ticketIds tid = b0.ticketIds ++ [tid] :=
          if_neg hmem
        have hnres : tid ∉ b0.resolvedIds := by
          rw [hres, List.mem_filter]
          exact fun hc => hmem hc.1
        have hnpen : tid ∉ b0.pendingIds := by
          rw [hpen, List.mem_filter]
          exact fun hc => hmem hc.1
        by_cases hcls : isResolvedStatusB (jsOrStr (tbl tid) "") = true
        · rw [if_pos hcls]
          have haddr : addIfAbsent b0.resolvedIds tid = b0.resolvedIds ++ [tid] :=
            if_neg hnres
          constructor
          · rw [(hids _).1, (hids _).2.1]
            show addIfAbsent b0.resolvedIds tid =
              List.filter (classifiesResolved tbl) (addIfAbsent b0.ticketIds tid)
            rw [haddr, hadd, List.filter_append, hres]
            simp [classifiesResolved, hcls]
          · rw [(hids _).1, (hids _).2.2]
            show b0.pendingIds =
              List.filter (fun t => !(classifiesResolved tbl t))
                (addIfAbsent b0.ticketIds tid)
            rw [hadd, List.filter_append, hpen]
            simp [classifiesResolved, hcls]
        · rw [if_neg hcls]
          have haddp : addIfAbsent b0.pendingIds tid = b0.pendingIds ++ [tid] :=
            if_neg hnpen
          constructor
          · rw [(hids _).1, (hids _).2.1]
            show b0.resolvedIds =
              List.filter (classifiesResolved tbl) (addIfAbsent b0.ticketIds tid)
            rw [hadd, List.filter_append, hres]
            simp [classifiesResolved, hcls]
          · rw [(hids _).1, (hids _).2.2]
            show addIfAbsent b0.pendingIds tid =
              List.filter (fun t => !(classifiesResolved tbl t))
                (addIfAbsent b0.ticketIds tid)
            rw [haddp, hadd, List.filter_append, hpen]
            simp [classifiesResolved, hcls]
    · dsimp only
      rw [if_neg ha]
      exact h a

theorem perfInv_foldl (tbl : String → Option String) :
    ∀ (rows : List PerfRow) (acc : String → Option PerfBucket),
      PerfInv tbl acc → PerfInv tbl (rows.foldl (perfStep tbl) acc)
  | [], _, h => h
  | row :: rows, acc, h =>
      perfInv_foldl tbl rows (perfStep tbl acc row) (perfInv_step tbl h row)

theorem length_filter_add_length_filter_not {α : Type} (p : α → Bool) :
    ∀ l : List α, (l.filter p).length + (l.filter (fun x => !(p x))).length = l.length
  | [] => rfl
  | x :: l => by
      rw [List.filter_cons, List.filter_cons]
      have ih := length_filter_add_length_filter_not p l
      cases hx : p x <;> simp [hx] <;> omega

/-- C10 amended (standalone route). In the route that prebuilds the status
table, every agent's `resolvedIds` and `pendingIds` are complementary
filters of its `ticketIds`: each ticket id in `ticketIds` is in exactly one
of the two sets, and `ticketsCreated = ticketsResolved + pendingTickets`
holds for every output row. -/
theorem perf_created_eq_resolved_add_pending (tbl : String → Option String)
    (rows : List PerfRow) (agent : String) :
    (((perfAgentsMap tbl rows agent).getD emptyPerfBucket).ticketIds.length =
      ((perfAgentsMap tbl rows agent).getD emptyPerfBucket).resolvedIds.length +
        ((perfAgentsMap tbl rows agent).getD emptyPerfBucket).pendingIds.length) ∧
    (∀ t ∈ ((perfAgentsMap tbl rows agent).getD emptyPerfBucket).ticketIds,
      (t ∈ ((perfAgentsMap tbl rows agent).getD emptyPerfBucket).resolvedIds ∧
        t ∉ ((perfAgentsMap tbl rows agent).getD emptyPerfBucket).pendingIds) ∨
      (t ∈ ((perfAgentsMap tbl rows agent).getD emptyPerfBucket).pendingIds ∧
        t ∉ ((perfAgentsMap tbl rows agent).getD emptyPerfBucket).resolvedIds)) := by
  have hinv := perfInv_foldl tbl rows (fun _ => none)
    (fun a => ⟨rfl, rfl⟩) agent
  obtain ⟨hres, hpen⟩ := hinv
  unfold perfAgentsMap
  constructor
  · rw [hres, hpen]
    exact (length_filter_add_length_filter_not (classifiesResolved tbl) _).symm
  · intro t ht
    by_cases hcls : classifiesResolved tbl t = true
    · left
      constructor
      · rw [hres, List.mem_filter]
        exact ⟨ht, hcls⟩
      · rw [hpen, List.mem_filter]
        simp [hcls]
    · right
      constructor
      · rw [hpen, List.mem_filter]
        simp only [Bool.not_eq_true] at hcls
        simp [ht, hcls]
      · rw [hres, List.mem_filter]
        simp [hcls]

theorem perf_created_eq_resolved_add_pending_witness :
    ((perfAgentsMap (fun _ => some "closed")
        [{ agentName := some "a1", ticketNumber := some "7", id := none,
           resolutionTime := none, firstResponseTime := none,
           threadCount := none, responseCount := none }] "a1").getD
      emptyPerfBucket).ticketIds.length =
    ((perfAgentsMap (fun _ => some "closed")
        [{ agentName := some "a1", ticketNumber := some "7", id := none,
           resolutionTime := none, firstResponseTime := none,
           threadCount := none, responseCount := none }] "a1").getD
      emptyPerfBucket).resolvedIds.length +
    ((perfAgentsMap (fun _ => some "closed")
        [{ agentName := some "a1", ticketNumber := some "7", id := none,
           resolutionTime := none, firstResponseTime := none,
           threadCount := none, responseCount := none }] "a1").getD
      emptyPerfBucket).pendingIds.length ∧
    (("7" ∈ ((perfAgentsMap (fun _ => some "closed")
        [{ agentName := some "a1", ticketNumber := some "7", id := none,
           resolutionTime := none, firstResponseTime := none,
           threadCount := none, responseCount := none }] "a1").getD
      emptyPerfBucket).resolvedIds ∧
     "7" ∉ ((perfAgentsMap (fun _ => some "closed")
        [{ agentName := some "a1", ticketNumber := some "7", id := none,
           resolutionTime := none, firstResponseTime := none,
           threadCount := none, responseCount := none }] "a1").getD
      emptyPerfBucket).pendingIds) ∨
    ("7" ∈ ((perfAgentsMap (fun _ => some "closed")
        [{ agentName := some "a1", ticketNumber := some "7", id := none,
           resolutionTime := none, firstResponseTime := none,
           threadCount := none, responseCount := none }] "a1").getD
      emptyPerfBucket).pendingIds ∧
     "7" ∉ ((perfAgentsMap (fun _ => some "closed")
        [{ agentName := some "a1", ticketNumber := some "7", id := none,
           resolutionTime := none, firstResponseTime := none,
           threadCount := none, responseCount := none }] "a1").getD
      emptyPerfBucket).resolvedIds)) := by
  refine ⟨(perf_created_eq_resolved_add_pending (fun _ => some "closed") _ "a1").1, ?_⟩
  exact (perf_created_eq_resolved_add_pending (fun _ => some "closed")
    [{ agentName := some "a1", ticketNumber := some "7", id := none,
       resolutionTime := none, firstResponseTime := none,
       threadCount := none, responseCount := none }] "a1").2 "7" (by decide)

/-! ## The other `/api/agent-performance` pass (phase 1 of the server file)

There the status table `statusMapLocal` is filled in DURING the same
`forEach` that classifies: a ticket id occurring twice in the merged
(un-deduplicated) active++archived list with a status change is classified
under each status in turn. -/

structure BaseTicket where
  ticketNumber : Option String
  id : Option String
  status : Option String
  assigneeId : Option String

/-- The id sets of one agent bucket of the base pass (the display-name
resolution and the zeroed resolution totals of the bucket do not interact
with the id sets and are omitted). -/
structure BaseBucket where
  ticketIds : List String
  resolvedIds : List String
  pendingIds : List String
  deriving DecidableEq, Repr

def emptyBaseBucket : BaseBucket :=
  { ticketIds := [], resolvedIds := [], pendingIds := [] }

/-- One iteration of the phase-1 `allTickets.forEach`: first write this
ticket's status into `statusMapLocal`, then ensure the agent bucket and
classify the ticket id by looking its status up in the partially-built
table. -/
def basePassStep
    (st : (String → Option String) × (String → Option BaseBucket))
    (t : BaseTicket) :
    (String → Option String) × (String → Option BaseBucket) :=
  let key := jsOrStr t.ticketNumber (jsOrStr t.id "")
  let tbl' := if key = "" then st.1
    else fun k => if k = key then some (jsToLower (jsOrStr t.status "")) else st.1 k
  let agentKey := jsOrStr t.assigneeId "unassigned"
  let b0 := (st.2 agentKey).getD emptyBaseBucket
  if key = "" then (tbl', fun k => if k = agentKey then some b0 else st.2 k)
  else
    let b1 := { b0 with ticketIds := addIfAbsent b0.ticketIds key }
    let b2 :=
      if jsOrStr (tbl' key) "" ∈ resolvedStatuses then
        { b1 with resolvedIds := addIfAbsent b1.resolvedIds key }
      else { b1 with pendingIds := addIfAbsent b1.pendingIds key }
    (tbl', fun k => if k = agentKey then some b2 else st.2 k)

/-- The whole phase-1 pass. -/
def basePass (tickets : List BaseTicket) :
    (String → Option String) × (String → Option BaseBucket) :=
  tickets.foldl basePassStep ((fun _ => none), (fun _ => none))

/-- C10 counterexample. A ticket in both the active list (status `"Open"`)
and the archived list (status `"Closed"`) of the merged, un-deduplicated
input is classified twice — first as pending, then as resolved — so the
agent's row has `ticketsCreated = 1` but
`ticketsResolved + pendingCount = 2`. -/
theorem basePass_double_classification :
    ((basePass
        [{ ticketNumber := some "7", id := none, status := some "Open",
           assigneeId := some "a1" },
         { ticketNumber := some "7", id := none, status := some "Closed",
           assigneeId := some "a1" }]).2 "a1").getD emptyBaseBucket =
      { ticketIds := ["7"], resolvedIds := ["7"], pendingIds := ["7"] } ∧
    (((basePass
        [{ ticketNumber := some "7", id := none, status := some "Open",
           assigneeId := some "a1" },
         { ticketNumber := some "7", id := none, status := some "Closed",
           assigneeId := some "a1" }]).2 "a1").getD emptyBaseBucket).ticketIds.length ≠
    (((basePass
        [{ ticketNumber := some "7", id := none, status := some "Open",
           assigneeId := some "a1" },
         { ticketNumber := some "7", id := none, status := some "Closed",
           assigneeId := some "a1" }]).2 "a1").getD emptyBaseBucket).resolvedIds.length +
    (((basePass
        [{ ticketNumber := some "7", id := none, status := some "Open",
           assigneeId := some "a1" },
         { ticketNumber := some "7", id := none, status := some "Closed",
           assigneeId := some "a1" }]).2 "a1").getD emptyBaseBucket).pendingIds.length := by
  constructor <;> decide

/-! ## Yearly trend aggregation

Two variants exist. The charts component builds `map[createdYear].created`
from `createdTime` and, independently, `map[closedYear].resolved` from
`closedTime` for resolved-like statuses. The server route
`/api/tickets-yearly-summary` instead keys BOTH counters by the creation
year (2020–2025) and never consults `closedTime`. `new Date(s).getFullYear()`
is the parameter `parseYear`, `none` standing for an invalid date. -/

structure YTicket where
  status : Option String
  createdTime : Option String
  closedTime : Option String

/-- `map[y].created += 1` on a year-indexed table of
`(created, resolved)` pairs. -/
def bumpCreated (m : ℤ → ℕ × ℕ) (y0 : ℤ) : ℤ → ℕ × ℕ :=
  fun y => if y = y0 then ((m y).1 + 1, (m y).2) else m y

/-- `map[y].resolved += 1`. -/
def bumpResolved (m : ℤ → ℕ × ℕ) (y0 : ℤ) : ℤ → ℕ × ℕ :=
  fun y => if y = y0 then ((m y).1, (m y).2 + 1) else m y

/-- Charts variant, created half: if `t.createdTime` is truthy and parses,
bump that year's `created`. -/
def createdPart (parseYear : String → Option ℤ) (t : YTicket)
    (m : ℤ → ℕ × ℕ) : ℤ → ℕ × ℕ :=
  if jsTruthyStr t.createdTime then
    match parseYear (t.createdTime.getD "") with
    | some y0 => bumpCreated m y0
    | none => m
  else m

/-- Charts variant, resolved half: if the lowercased status is
resolved-like and `t.closedTime` is truthy and parses, bump the CLOSURE
year's `resolved`. -/
def resolvedPart (parseYear : String → Option ℤ) (t : YTicket)
    (m : ℤ → ℕ × ℕ) : ℤ → ℕ × ℕ :=
  if jsToLower (jsOrStr t.status "") ∈ resolvedStatuses ∧ jsTruthyStr t.closedTime then
    match parseYear (t.closedTime.getD "") with
    | some y0 => bumpResolved m y0
    | none => m
  else m

/-- One iteration of the charts `forEach`: the two halves are independent
increments. -/
def yearlyDataStep (parseYear : String → Option ℤ) (m : ℤ → ℕ × ℕ)
    (t : YTicket) : ℤ → ℕ × ℕ :=
  resolvedPart parseYear t (createdPart parseYear t m)

/-- The whole `yearlyData` accumulation of the charts component. -/
def buildYearlyData (parseYear : String → Option ℤ) (tickets : List YTicket) :
    ℤ → ℕ × ℕ :=
  tickets.foldl (yearlyDataStep parseYear) (fun _ => (0, 0))

/-- What one ticket adds to year `y`'s `created` counter. -/
def createdContrib (parseYear : String → Option ℤ) (t : YTicket) (y : ℤ) : ℕ :=
  if jsTruthyStr t.createdTime ∧ parseYear (t.createdTime.getD "") = some y
  then 1 else 0

/-- What one ticket adds to year `y`'s `resolved` counter. -/
def resolvedContrib (parseYear : String → Option ℤ) (t : YTicket) (y : ℤ) : ℕ :=
  if (jsToLower (jsOrStr t.status "") ∈ resolvedStatuses ∧ jsTruthyStr t.closedTime) ∧
      parseYear (t.closedTime.getD "") = some y
  then 1 else 0

theorem createdPart_fst (parseYear : String → Option ℤ) (t : YTicket)
    (m : ℤ → ℕ × ℕ) (y : ℤ) :
    (createdPart parseYear t m y).1 = (m y).1 + createdContrib parseYear t y := by
  unfold createdPart createdContrib
  by_cases h1 : jsTruthyStr t.createdTime = true
  · cases hp : parseYear (t.createdTime.getD "") with
    | none => simp [h1, hp]
    | some y0 =>
        by_cases hy : y = y0
        · subst hy
          simp [h1, hp, bumpCreated]
        · have hy' : ¬ y0 = y := fun h => hy h.symm
          simp [h1, hp, bumpCreated, hy, hy']
  · simp [h1]

theorem createdPart_snd (parseYear : String → Option ℤ) (t : YTicket)
    (m : ℤ → ℕ × ℕ) (y : ℤ) :
    (createdPart parseYear t m y).2 = (m y).2 := by
  unfold createdPart
  by_cases h1 : jsTruthyStr t.createdTime = true
  · cases hp : parseYear (t.createdTime.getD "") with
    | none => simp [h1, hp]
    | some y0 =>
        by_cases hy : y = y0 <;> simp [h1, hp, bumpCreated, hy]
  · simp [h1]

theorem resolvedPart_snd (parseYear : String → Option ℤ) (t : YTicket)
    (m : ℤ → ℕ × ℕ) (y : ℤ) :
    (resolvedPart parseYear t m y).2 = (m y).2 + resolvedContrib parseYear t y := by
  unfold resolvedPart resolvedContrib
  by_cases h1 : jsToLower (jsOrStr t.status "") ∈ resolvedStatuses ∧
      jsTruthyStr t.closedTime = true
  · cases hp : parseYear (t.closedTime.getD "") with
    | none => simp [h1, hp]
    | some y0 =>
        by_cases hy : y = y0
        · subst hy
          simp [h1, hp, bumpResolved]
        · have hy' : ¬ y0 = y := fun h => hy h.symm
          simp [h1, hp, bumpResolved, hy, hy']
  · rw [if_neg h1, if_neg (fun hc => h1 hc.1)]
    omega

theorem resolvedPart_fst (parseYear : String → Option ℤ) (t : YTicket)
    (m : ℤ → ℕ × ℕ) (y : ℤ) :
    (resolvedPart parseYear t m y).1 = (m y).1 := by
  unfold resolvedPart
  by_cases h1 : jsToLower (jsOrStr t.status "") ∈ resolvedStatuses ∧
      jsTruthyStr t.closedTime = true
  · cases hp : parseYear (t.closedTime.getD "") with
    | none => simp [h1, hp]
    | some y0 =>
        by_cases hy : y = y0 <;> simp [h1, hp, bumpResolved, hy]
  · rw [if_neg (by simpa using h1)]

theorem yearlyData_go (parseYear : String → Option ℤ) (y : ℤ) :
    ∀ (tickets : List YTicket) (m : ℤ → ℕ × ℕ),
      ((tickets.foldl (yearlyDataStep parseYear) m) y).1 =
        (m y).1 + (tickets.map (fun t => createdContrib parseYear t y)).sum ∧
      ((tickets.foldl (yearlyDataStep parseYear) m) y).2 =
        (m y).2 + (tickets.map (fun t => resolvedContrib parseYear t y)).sum
  | [], m => by simp
  | t :: ts, m => by
      rw [List.foldl_cons]
      obtain ⟨ih1, ih2⟩ := yearlyData_go parseYear y ts (yearlyDataStep parseYear m t)
      have hstep1 : (yearlyDataStep parseYear m t y).1 =
          (m y).1 + createdContrib parseYear t y := by
        unfold yearlyDataStep
        rw [resolvedPart_fst, createdPart_fst]
      have hstep2 : (yearlyDataStep parseYear m t y).2 =
          (m y).2 + resolvedContrib parseYear t y := by
        unfold yearlyDataStep
        rw [resolvedPart_snd, createdPart_snd]
      rw [List.map_cons, List.map_cons, List.sum_cons, List.sum_cons]
      constructor
      · rw [ih1, hstep1]
        omega
      · rw [ih2, hstep2]
        omega

/-- C3 amended (charts variant). In the charts-side yearly aggregation,
year `y`'s `created` counter is exactly the number of tickets whose
`createdTime` parses to year `y`, and `resolved` is exactly the number of
tickets with a resolved-like status whose `closedTime` parses to year `y`
— the two increments are independent, and resolved counts are keyed by
the closure year. A ticket created in 2023 and closed resolved-like in
2024 therefore contributes 1 to created at 2023 and 1 to resolved at 2024
and nothing else. -/
theorem yearlyData_keyed_independently (parseYear : String → Option ℤ)
    (tickets : List YTicket) (y : ℤ) :
    (buildYearlyData parseYear tickets y).1 =
      (tickets.map (fun t => createdContrib parseYear t y)).sum ∧
    (buildYearlyData parseYear tickets y).2 =
      (tickets.map (fun t => resolvedContrib parseYear t y)).sum := by
  obtain ⟨h1, h2⟩ := yearlyData_go parseYear y tickets (fun _ => (0, 0))
  unfold buildYearlyData
  constructor
  · rw [h1]
    omega
  · rw [h2]
    omega

/-- The server `/api/tickets-yearly-summary` per-ticket step: parse the
CREATION time; return if absent/unparsable or outside the prefilled
2020–2025 table; bump that year's `created`, and bump the SAME year's
`resolved` when the raw status (lowercased) is resolved-like —
`closedTime` is never consulted. -/
def yearlySummaryStep (parseYear : String → Option ℤ) (m : ℤ → ℕ × ℕ)
    (t : YTicket) : ℤ → ℕ × ℕ :=
  match (if jsTruthyStr t.createdTime then parseYear (t.createdTime.getD "") else none) with
  | none => m
  | some y0 =>
      if 2020 ≤ y0 ∧ y0 ≤ 2025 then
        if jsToLower (jsOrStr t.status "") ∈ resolvedStatuses then
          bumpResolved (bumpCreated m y0) y0
        else bumpCreated m y0
      else m

/-- The whole server yearly-summary accumulation. -/
def buildYearlySummary (parseYear : String → Option ℤ)
    (tickets : List YTicket) : ℤ → ℕ × ℕ :=
  tickets.foldl (yearlySummaryStep parseYear) (fun _ => (0, 0))

/-- The concrete date semantics of the counterexample. -/
def demoParseYear : String → Option ℤ := fun s =>
  if s = "2023-05-01T00:00:00Z" then some 2023
  else if s = "2024-02-01T00:00:00Z" then some 2024
  else none

/-- C3 counterexample (server route). A ticket created in 2023 and closed
in 2024 with status `"closed"` yields `resolved[2023] = 1` and
`resolved[2024] = 0` in the yearly-summary route — the resolved counter is
keyed by the creation year and `closedTime` is ignored, contrary to the
claim's `resolved[2024] += 1` with no contribution to `resolved[2023]`. -/
theorem yearlySummary_resolved_keyed_by_creation :
    (buildYearlySummary demoParseYear
      [{ status := some "closed",
         createdTime := some "2023-05-01T00:00:00Z",
         closedTime := some "2024-02-01T00:00:00Z" }] 2023).2 = 1 ∧
    (buildYearlySummary demoParseYear
      [{ status := some "closed",
         createdTime := some "2023-05-01T00:00:00Z",
         closedTime := some "2024-02-01T00:00:00Z" }] 2024).2 = 0 ∧
    (buildYearlySummary demoParseYear
      [{ status := some "closed",
         createdTime := some "2023-05-01T00:00:00Z",
         closedTime := some "2024-02-01T00:00:00Z" }] 2023).1 = 1 := by
  refine ⟨?_, ?_, ?_⟩ <;> decide

/-! ## Free-text search

Two search implementations exist. The archived-table filter: a trimmed,
purely-numeric query matches by exact ticket-number equality; any other
non-empty query matches when some whitespace-delimited word of the agent
name starts with it. The metrics-table search instead tests whether the
query is a substring of the space-joined concatenation of agent name,
ticket number, status, department name and created time. The sorts applied
after filtering only reorder rows and are not part of the matching
policy. -/

structure SRow where
  agentName : Option String
  ticketNumber : Option String
  status : Option String
  departmentName : Option String
  createdTime : Option String
  deriving DecidableEq, Repr

/-- `/^\d+$/.test(q)`: non-empty and all digits. -/
def isAllDigits (s : String) : Bool := !s.data.isEmpty && s.data.all isDigitCh

/-- `w.startsWith(q)` at the character level: `startsWithCh q w` is true
iff `q` is a leading segment of `w`. -/
def startsWithCh : List Char → List Char → Bool
  | [], _ => true
  | _ :: _, [] => false
  | a :: qs, b :: ws => a = b && startsWithCh qs ws

/-- Splitting on whitespace, keeping (possibly empty) segments. -/
def splitWsGo : List Char → List Char → List (List Char)
  | [], acc => [acc.reverse]
  | c :: rest, acc =>
      if isWsCh c then acc.reverse :: splitWsGo rest []
      else splitWsGo rest (c :: acc)

/-- `agent.split(/\s+/).filter(Boolean)`: the non-empty maximal
whitespace-free runs. -/
def wordsOf (s : List Char) : List (List Char) :=
  (splitWsGo s []).filter (fun w => !w.isEmpty)

/-- The archived-table row predicate: numeric queries by exact
ticket-number equality (on the trimmed, lowercased number), other queries
by word-head match against the lowercased agent name. -/
def archivedRowMatches (q : List Char) (numeric : Bool) (row : SRow) : Bool :=
  if numeric then
    decide ((jsToLower (strTrim (jsOrStr row.ticketNumber ""))).data = q)
  else
    (wordsOf (jsToLower (jsOrStr row.agentName "")).data).any
      (fun w => startsWithCh q w)

/-- The filtering stage of `filteredArchivedRows` (no date range active):
an empty trimmed query filters nothing. -/
def filteredArchivedSearch (rows : List SRow) (searchTerm : String) : List SRow :=
  if strTrim searchTerm = "" then rows
  else
    rows.filter (archivedRowMatches (jsToLower (strTrim searchTerm)).data
      (isAllDigits (jsToLower (strTrim searchTerm))))

/-- `hay.includes(needle)` at the character level. -/
def listContainsSub : List Char → List Char → Bool
  | [], needle => needle.isEmpty
  | h :: t, needle => startsWithCh needle (h :: t) || listContainsSub t needle

/-- The combined string of the metrics-table search:
`agentName ticketNumber status departmentName createdTime` joined by
single spaces, lowercased. -/
def combinedOf (r : SRow) : List Char :=
  ((jsOrStr r.agentName "").data ++ [' '] ++
   (jsOrStr r.ticketNumber "").data ++ [' '] ++
   (jsOrStr r.status "").data ++ [' '] ++
   (jsOrStr r.departmentName "").data ++ [' '] ++
   (jsOrStr r.createdTime "").data).map jsToLowerChar

/-- The filtering stage of `sortedMetricsRows`: substring containment of
the trimmed, lowercased query in the combined field string. -/
def metricsSearch (rows : List SRow) (searchTerm : String) : List SRow :=
  if (jsToLower (strTrim searchTerm)).data.isEmpty then rows
  else rows.filter (fun r =>
    listContainsSub (combinedOf r) (jsToLower (strTrim searchTerm)).data)

def demoRow123 : SRow :=
  { agentName := some "Alice", ticketNumber := some "123",
    status := some "open", departmentName := some "IT Support",
    createdTime := some "2024-01-01" }

def demoRow1234 : SRow :=
  { agentName := some "Bob", ticketNumber := some "1234",
    status := some "open", departmentName := some "IT Support",
    createdTime := some "2024-01-02" }

/-- C7 counterexample. The metrics-table search matches the numeric query
`"123"` by substring: with ticket numbers `["123", "1234"]` it returns
both rows, ticket `"1234"` included, against the claim's exact-equality
policy for every row set. -/
theorem metricsSearch_numeric_not_exact :
    metricsSearch [demoRow123, demoRow1234] "123" = [demoRow123, demoRow1234] ∧
    demoRow1234.ticketNumber ≠ some "123" := by
  constructor <;> decide

/-- C7 amended. The asymmetric policy holds for the archived-table search
filter: for a non-empty trimmed query, if the query is purely numeric a
row matches exactly when its trimmed, lowercased ticket number equals the
lowercased query, and otherwise exactly when some whitespace-delimited
word of its lowercased agent name starts with the query. The metrics-table
search instead matches by substring containment in the combined field
string, so a numeric query there also matches longer ticket numbers. -/
theorem archivedSearch_policy (rows : List SRow) (searchTerm : String)
    (row : SRow) (hne : strTrim searchTerm ≠ "") :
    (isAllDigits (jsToLower (strTrim searchTerm)) = true →
      (row ∈ filteredArchivedSearch rows searchTerm ↔
        row ∈ rows ∧
          (jsToLower (strTrim (jsOrStr row.ticketNumber ""))).data =
            (jsToLower (strTrim searchTerm)).data)) ∧
    (isAllDigits (jsToLower (strTrim searchTerm)) = false →
      (row ∈ filteredArchivedSearch rows searchTerm ↔
        row ∈ rows ∧
          (wordsOf (jsToLower (jsOrStr row.agentName "")).data).any
            (fun w => startsWithCh (jsToLower (strTrim searchTerm)).data w) = true)) := by
  unfold filteredArchivedSearch
  rw [if_neg hne]
  constructor
  · intro hnum
    rw [List.mem_filter]
    unfold archivedRowMatches
    rw [hnum]
    simp
  · intro hnum
    rw [List.mem_filter]
    unfold archivedRowMatches
    rw [hnum]
    simp

theorem archivedSearch_policy_witness :
    demoRow123 ∈ filteredArchivedSearch [demoRow123, demoRow1234] "123" ∧
    demoRow1234 ∉ filteredArchivedSearch [demoRow123, demoRow1234] "123" := by
  have h123 := archivedSearch_policy [demoRow123, demoRow1234] "123" demoRow123
    (by decide)
  have h1234 := archivedSearch_policy [demoRow123, demoRow1234] "123" demoRow1234
    (by decide)
  constructor
  · exact (h123.1 (by decide)).mpr ⟨by decide, by decide⟩
  · intro hc
    have := (h1234.1 (by decide)).mp hc
    exact absurd this.2 (by decide)

/-! ## Duration formatting and the format/parse round trip

`formatHoursToText` renders a positive decimal hour count as `"H:MM"`
(zero or negative renders `"0:00"`); `toMinutes` parses `"H:MM"` back to
minutes by splitting on `":"` and applying `Number` to both parts. For a
positive argument, JS `hrs % 1` equals `hrs - Math.floor(hrs)`. -/

/-- Zero-pad a rendered number to two characters
(`.toString().padStart(2, "0")`). -/
def padTwoZeros (s : List Char) : List Char :=
  if s.length < 2 then List.replicate (2 - s.length) '0' ++ s else s

/-- `formatHoursToText`. -/
def formatHoursToText (hrs : ℚ) : String :=
  if hrs ≤ 0 then "0:00"
  else
    String.mk ((Nat.repr (⌊hrs⌋).toNat).data ++
      ':' :: padTwoZeros (Nat.repr (jsRound ((hrs - ⌊hrs⌋) * 60)).toNat).data)

/-- `txt.split(":")`, keeping empty segments. -/
def splitColonGo : List Char → List Char → List (List Char)
  | [], acc => [acc.reverse]
  | c :: rest, acc =>
      if c = ':' then acc.reverse :: splitColonGo rest []
      else splitColonGo rest (c :: acc)

def splitColon (s : List Char) : List (List Char) := splitColonGo s []

/-- JS `Number(string)` restricted to the decimal numerals the dashboard
produces: surrounding whitespace is trimmed, the empty string is `0`,
digit strings and `digits.digits` fractions parse to their value, anything
else is `NaN` (`none`). -/
def jsNumber (s : List Char) : Option ℚ :=
  let t := ((s.dropWhile isWsCh).reverse.dropWhile isWsCh).reverse
  if t.isEmpty then some 0
  else if t.all isDigitCh then some (digitsToNat t : ℚ)
  else
    match t.dropWhile isDigitCh with
    | '.' :: fr =>
        if !fr.isEmpty && fr.all isDigitCh then
          some ((digitsToNat (t.takeWhile isDigitCh) : ℚ) +
            (digitsToNat fr : ℚ) / ((10 : ℚ) ^ fr.length))
        else none
    | _ => none

/-- `toMinutes`: `"H:MM"` text to minutes; a missing part or a part
`Number` cannot parse yields `0`. -/
def toMinutes (txt : String) : ℚ :=
  if txt = "" then 0
  else
    let parts := splitColon txt.data
    match jsNumber (parts.headD []), (match parts with
      | _ :: b :: _ => jsNumber b
      | _ => none) with
    | some hv, some mv => hv * 60 + mv
    | _, _ => 0

theorem splitColonGo_no_colon :
    ∀ (s : List Char) (acc : List Char), (':' ∈ s → False) →
      splitColonGo s acc = [acc.reverse ++ s]
  | [], acc, _ => by simp [splitColonGo]
  | c :: rest, acc, h => by
      have hc : ¬ c = ':' := fun hc =>
        h (hc ▸ List.mem_cons_self c rest)
      rw [splitColonGo, if_neg hc,
        splitColonGo_no_colon rest (c :: acc) (fun hm => h (List.mem_cons_of_mem _ hm))]
      simp

theorem splitColonGo_append :
    ∀ (a b acc : List Char), (':' ∈ a → False) →
      splitColonGo (a ++ ':' :: b) acc = (acc.reverse ++ a) :: splitColon b
  | [], b, acc, _ => by
      rw [List.nil_append, splitColonGo, if_pos rfl]
      simp [splitColon]
  | c :: a, b, acc, h => by
      have hc : ¬ c = ':' := fun hc =>
        h (hc ▸ List.mem_cons_self c a)
      rw [List.cons_append, splitColonGo, if_neg hc,
        splitColonGo_append a b (c :: acc) (fun hm => h (List.mem_cons_of_mem _ hm))]
      simp

/-- `splitColon` of a string with exactly one colon. -/
theorem splitColon_pair (a b : List Char) (ha : ':' ∈ a → False)
    (hb : ':' ∈ b → False) :
    splitColon (a ++ ':' :: b) = [a, b] := by
  unfold splitColon
  rw [splitColonGo_append a b [] ha]
  unfold splitColon
  rw [splitColonGo_no_colon b [] hb]
  simp

/-- Hour numerals up to 23 parse back to their value and contain no
colon. -/
theorem jsNumber_repr_hour (h : ℕ) (hh : h ≤ 23) :
    jsNumber (Nat.repr h).data = some (h : ℚ) ∧
      (':' ∈ (Nat.repr h).data → False) := by
  interval_cases h <;> exact ⟨by decide, by decide⟩

/-- Padded minute numerals up to 59 parse back to their value and contain
no colon. -/
theorem jsNumber_pad_minute (m : ℕ) (hm : m ≤ 59) :
    jsNumber (padTwoZeros (Nat.repr m).data) = some (m : ℚ) ∧
      (':' ∈ padTwoZeros (Nat.repr m).data → False) := by
  interval_cases m <;> exact ⟨by decide, by decide⟩

theorem floor_min_div_sixty (h m : ℕ) (hm : m ≤ 59) :
    ⌊(((h * 60 + m : ℕ) : ℚ) / 60)⌋ = (h : ℤ) := by
  rw [Int.floor_eq_iff]
  push_cast
  constructor
  · rw [le_div_iff₀ (by norm_num : (0:ℚ) < 60)]
    nlinarith [Nat.cast_nonneg (α := ℚ) m]
  · rw [div_lt_iff₀ (by norm_num : (0:ℚ) < 60)]
    have hm' : (m : ℚ) ≤ 59 := by exact_mod_cast hm
    nlinarith

theorem jsRound_frac_sixty (h m : ℕ) (_hm : m ≤ 59) :
    jsRound ((((h * 60 + m : ℕ) : ℚ) / 60 - (((h : ℕ) : ℤ) : ℚ)) * 60) =
      (m : ℤ) := by
  have hq : (((h * 60 + m : ℕ) : ℚ) / 60 - (((h : ℕ) : ℤ) : ℚ)) * 60 = (m : ℚ) := by
    push_cast
    field_simp
    ring
  rw [hq]
  unfold jsRound
  rw [Int.floor_eq_iff]
  push_cast
  constructor <;> linarith

/-- C9. For every `h ≤ 23` and `m ≤ 59`, formatting `h*60+m` minutes as
`"H:MM"` via `formatHoursToText` (at `(h*60+m)/60` hours) and parsing the
text back with `toMinutes` returns exactly `h*60+m`: the format/parse
round trip is lossless at minute precision. -/
theorem duration_roundtrip (h m : ℕ) (hh : h ≤ 23) (hm : m ≤ 59) :
    toMinutes (formatHoursToText (((h * 60 + m : ℕ) : ℚ) / 60)) =
      ((h * 60 + m : ℕ) : ℚ) := by
  by_cases hzero : h = 0 ∧ m = 0
  · obtain ⟨h0, m0⟩ := hzero
    subst h0
    subst m0
    have h1 : formatHoursToText (((0 * 60 + 0 : ℕ) : ℚ) / 60) = "0:00" := by
      unfold formatHoursToText
      rw [if_pos (by norm_num)]
    rw [h1]
    have hs : splitColon "0:00".data = [['0'], ['0', '0']] := by decide
    have hj1 : jsNumber ['0'] = some ((0 : ℕ) : ℚ) := by decide
    have hj2 : jsNumber ['0', '0'] = some ((0 : ℕ) : ℚ) := by decide
    unfold toMinutes
    rw [if_neg (by decide)]
    dsimp only
    rw [hs]
    simp only [List.headD_cons]
    rw [hj1, hj2]
    push_cast
    ring
  · have hpos : (0 : ℚ) < ((h * 60 + m : ℕ) : ℚ) / 60 := by
      have hn : 0 < h * 60 + m := by omega
      positivity
    have hfmt : formatHoursToText (((h * 60 + m : ℕ) : ℚ) / 60) =
        String.mk ((Nat.repr h).data ++
          ':' :: padTwoZeros (Nat.repr m).data) := by
      unfold formatHoursToText
      rw [if_neg (not_le.mpr hpos), floor_min_div_sixty h m hm,
        jsRound_frac_sixty h m hm, Int.toNat_natCast, Int.toNat_natCast]
    rw [hfmt]
    obtain ⟨hhp, hhc⟩ := jsNumber_repr_hour h hh
    obtain ⟨hmp, hmc⟩ := jsNumber_pad_minute m hm
    have hne : String.mk ((Nat.repr h).data ++
        ':' :: padTwoZeros (Nat.repr m).data) ≠ "" := by
      intro hc
      have : (Nat.repr h).data ++ ':' :: padTwoZeros (Nat.repr m).data =
          ([] : List Char) := congrArg String.data hc
      exact absurd this (by simp)
    unfold toMinutes
    rw [if_neg hne]
    have hsplit : splitColon ((Nat.repr h).data ++
        ':' :: padTwoZeros (Nat.repr m).data) = [(Nat.repr h).data,
          padTwoZeros (Nat.repr m).data] :=
      splitColon_pair _ _ hhc hmc
    dsimp only
    rw [hsplit]
    simp only [List.headD_cons]
    rw [hhp, hmp]
    push_cast
    ring

theorem duration_roundtrip_witness :
    toMinutes (formatHoursToText (((2 * 60 + 5 : ℕ) : ℚ) / 60)) =
      ((2 * 60 + 5 : ℕ) : ℚ) :=
  duration_roundtrip 2 5 (by norm_num) (by norm_num)

end TicketDash
